import Mathlib

/-!
Shallow embedding of the compression orchestration code of the
mydevicemypdf repository.

The embedded source files are
`src/lib/pdf-security.ts` (the revision that defines `LOSSLESS_ENGINES`,
`sortLosslessResults`, `runLosslessEngines`, `compressPDF` and
`getCompressionPercent`) and `src/lib/pdf-compressor-mupdf.ts`
(`compressExtreme`).

Modelling conventions:
* a JS `Blob` is a byte payload; `Blob.size` is its byte length;
* a thrown JS value is an explicit `JsValue`; a function that may throw
  returns `Except JsValue _`, and an async function's rejected promise is
  the `Except.error` case;
* the four lossless backend adapters (imported from
  `pdf-compressor-lossless-engines`) and the mupdf / pdf-lib WASM
  primitives used by `compressExtreme` are external capabilities: they are
  parameters of the embedding, never fixed;
* progress callbacks (`onProgress`, `onEngineResult`) are fire-and-forget
  sinks with no influence on any returned value; they are omitted;
* JS `Array.prototype.sort` with the numeric comparator
  `(a, b) => a.compressedSize - b.compressedSize` is required by the
  ECMAScript specification to be a stable sort; it is modelled by
  `List.mergeSort` with the corresponding boolean `≤` on sizes.
-/

/-- Model of a JS `Blob`: an opaque byte payload. -/
structure Blob where
  data : List Nat
deriving DecidableEq, Repr

/-- JS `Blob.size`: the byte length of the payload. -/
def Blob.size (b : Blob) : Nat := b.data.length

/-- Model of a DOM `File`: a name plus byte content. -/
structure File where
  name : String
  content : List Nat
deriving DecidableEq, Repr

/-- JS `File.size`: the byte length of the file. -/
def File.size (f : File) : Nat := f.content.length

/-- A JS value that can be thrown: an `Error` object carrying a `.message`,
a plain string, or anything else. -/
inductive JsValue where
  | errorObj (message : String)
  | str (s : String)
  | other
deriving DecidableEq, Repr

/-- The `LosslessEngine` string union of `pdf-security.ts`:
`'mupdf' | 'pdf-lib' | 'ghostscript' | 'qpdf'`. -/
inductive LosslessEngine where
  | mupdf
  | pdfLib
  | ghostscript
  | qpdf
deriving DecidableEq, Repr

/-- The literal engine id string of each `LosslessEngine` member. -/
def LosslessEngine.id : LosslessEngine → String
  | .mupdf => "mupdf"
  | .pdfLib => "pdf-lib"
  | .ghostscript => "ghostscript"
  | .qpdf => "qpdf"

/-- The `EngineStatus` string union: `'success' | 'failed'`. -/
inductive EngineStatus where
  | success
  | failed
deriving DecidableEq, Repr

/-- The `LosslessEngineResult` record of `pdf-security.ts`; `null`-able
fields become `Option`. -/
structure LosslessEngineResult where
  engine : LosslessEngine
  label : String
  status : EngineStatus
  compressedSize : Option Nat
  compressionPercent : Option Int
  blob : Option Blob
  fileName : Option String
  error : Option String
deriving DecidableEq, Repr

/-- The `engine` field of the `CompressionResult` record:
`LosslessEngine | 'extreme'`. -/
inductive ResultEngine where
  | lossless (e : LosslessEngine)
  | extreme
deriving DecidableEq, Repr

/-- The `CompressionResult` record of `pdf-security.ts`. -/
structure CompressionResult where
  originalSize : Nat
  compressedSize : Nat
  blob : Blob
  fileName : String
  engine : ResultEngine
  engineResults : List LosslessEngineResult
deriving DecidableEq, Repr

/-- The `CompressionQuality` union: `'lossless' | 'extreme'`. -/
inductive CompressionQuality where
  | lossless
  | extreme
deriving DecidableEq, Repr

/-- JS `Math.round`: round half towards positive infinity. -/
def jsMathRound (x : ℚ) : Int := Int.floor (x + 1 / 2)

/-- Source `getCompressionPercent(original, compressed)`:
`0` when `original === 0`, else
`Math.round(((original - compressed) / original) * 100)`.
The JS float arithmetic is modelled exactly over the rationals. -/
def getCompressionPercent (original compressed : Nat) : Int :=
  if original = 0 then 0
  else jsMathRound ((((original : ℚ) - (compressed : ℚ)) / (original : ℚ)) * 100)

/-- Source `toErrorMessage(error)`: the message of an `Error` whose trimmed
message is non-empty, a string whose trimmed value is non-empty, otherwise
the fixed fallback text. -/
def toErrorMessage : JsValue → String
  | .errorObj m => if m.trim.isEmpty then "Unknown compression error" else m
  | .str s => if s.trim.isEmpty then "Unknown compression error" else s
  | .other => "Unknown compression error"

/-- Source `baseNameFor(file)`: the file name with a trailing `.pdf`
(case-insensitive) removed. -/
def baseNameFor (file : File) : String :=
  if file.name.toLower.endsWith ".pdf" then file.name.dropRight 4 else file.name

/-- The sanitising `engine.replace(/[^a-z0-9-]/gi, '-')` step of
`getEngineFileName`. -/
def engineSuffix (s : String) : String :=
  s.map (fun c => if c.isAlphanum || c = '-' then c else '-')

/-- Source `getEngineFileName(baseName, engine)`. -/
def getEngineFileName (baseName : String) (engine : LosslessEngine) : String :=
  baseName ++ "_compressed_" ++ engineSuffix engine.id ++ ".pdf"

/-- The boolean ascending-by-size order used to model the JS comparator
`(a, b) => a.compressedSize - b.compressedSize`; it is only ever applied to
records whose `compressedSize` is non-null, where `getD 0` is the identity. -/
def resultSizeLE (a b : LosslessEngineResult) : Bool :=
  a.compressedSize.getD 0 ≤ b.compressedSize.getD 0

/-- Source `sortLosslessResults(results)`: the successful records (with a
non-null size), stably sorted ascending by size, followed by the
non-successful records in their original order. -/
def sortLosslessResults (results : List LosslessEngineResult) : List LosslessEngineResult :=
  (results.filter
      (fun r => r.status == EngineStatus.success && r.compressedSize.isSome)).mergeSort
    resultSizeLE
  ++ results.filter (fun r => r.status != EngineStatus.success)

/-- One entry of the `LOSSLESS_ENGINES` array: an engine id, a display
label and the adapter call. The adapter is an external capability and may
throw, hence `Except`. -/
structure LosslessEngineRunner where
  engine : LosslessEngine
  label : String
  run : File → Except JsValue Blob

/-- An assignment of behaviour to the four external lossless backend
adapters imported from `pdf-compressor-lossless-engines`. -/
def LosslessAdapters : Type := LosslessEngine → File → Except JsValue Blob

/-- The `LOSSLESS_ENGINES` registration array, wired to a given adapter
assignment. -/
def LOSSLESS_ENGINES (adapters : LosslessAdapters) : List LosslessEngineRunner :=
  [⟨.mupdf, "MuPDF", adapters .mupdf⟩,
   ⟨.pdfLib, "pdf-lib", adapters .pdfLib⟩,
   ⟨.ghostscript, "Ghostscript", adapters .ghostscript⟩,
   ⟨.qpdf, "QPDF", adapters .qpdf⟩]

/-- The registered engine ids in registration (invocation) order. -/
def registeredEngines : List LosslessEngine :=
  [.mupdf, .pdfLib, .ghostscript, .qpdf]

/-- The body of one iteration of the `runLosslessEngines` loop: the
`try`/`catch` that turns one adapter call into one `LosslessEngineResult`. -/
def engineAttempt (originalSize : Nat) (baseName : String) (file : File)
    (runner : LosslessEngineRunner) : LosslessEngineResult :=
  match runner.run file with
  | .ok blob =>
    { engine := runner.engine
      label := runner.label
      status := .success
      compressedSize := some blob.size
      compressionPercent := some (getCompressionPercent originalSize blob.size)
      blob := some blob
      fileName := some (getEngineFileName baseName runner.engine)
      error := none }
  | .error e =>
    { engine := runner.engine
      label := runner.label
      status := .failed
      compressedSize := none
      compressionPercent := none
      blob := none
      fileName := none
      error := some (toErrorMessage e) }

/-- The sequential `for` loop of `runLosslessEngines`: the `results` array
in invocation order, one record pushed per registered runner. -/
def runEnginesLoop (originalSize : Nat) (baseName : String) (file : File) :
    List LosslessEngineRunner → List LosslessEngineResult
  | [] => []
  | runner :: rest =>
    engineAttempt originalSize baseName file runner ::
      runEnginesLoop originalSize baseName file rest

/-- Source `runLosslessEngines(file, originalSize, ...)`: run every
registered engine sequentially, then return `sortLosslessResults` of the
collected results. -/
def runLosslessEngines (adapters : LosslessAdapters) (file : File)
    (originalSize : Nat) : List LosslessEngineResult :=
  sortLosslessResults
    (runEnginesLoop originalSize (baseNameFor file) file (LOSSLESS_ENGINES adapters))

/-- The aggregate failure message built at the end of `compressPDF` when no
successful result exists: `failureSummary || 'All compression engines
failed'`, where `failureSummary` joins `label: error` over the records with
a truthy `error` field. -/
def aggregateFailureMessage (engineResults : List LosslessEngineResult) : String :=
  let failureSummary :=
    String.intercalate " | "
      ((engineResults.filter
          (fun r => match r.error with | some s => !s.isEmpty | none => false)).map
        (fun r => r.label ++ ": " ++ r.error.getD ""))
  if failureSummary.isEmpty then "All compression engines failed" else failureSummary

/-- A mupdf page handle: `page.getBounds()` returns `[x0, y0, x1, y1]`,
modelled as four exact coordinates. -/
structure MuPage where
  x0 : ℚ
  y0 : ℚ
  x1 : ℚ
  y1 : ℚ
deriving DecidableEq, Repr

/-- A mupdf document handle: `countPages()` pages, `loadPage(i)` giving the
i-th page. -/
structure MuDocument where
  pages : List MuPage
deriving DecidableEq, Repr

/-- Source `doc.countPages()`. -/
def MuDocument.countPages (d : MuDocument) : Nat := d.pages.length

/-- The opaque pixel buffer produced by `page.toPixmap(...)`. -/
structure Pixmap where
  raw : List Nat
deriving DecidableEq, Repr

/-- The opaque byte payload produced by `pixmap.asJPEG(quality)`. -/
structure JpegData where
  bytes : List Nat
deriving DecidableEq, Repr

/-- One page of the pdf-lib output document assembled by `compressExtreme`:
`addPage([width, height])` followed by `drawImage(img, {x, y, width,
height})`. -/
structure OutPage where
  width : ℚ
  height : ℚ
  image : JpegData
  drawX : ℚ
  drawY : ℚ
  drawWidth : ℚ
  drawHeight : ℚ
deriving DecidableEq, Repr

/-- The pdf-lib output document assembled page by page by
`compressExtreme`. -/
structure OutPdf where
  pages : List OutPage
deriving DecidableEq, Repr

/-- The external mupdf / pdf-lib WASM capabilities used by
`compressExtreme`. `openDocument` and `save` may throw; `embedJpg` is
folded into the page record (its payload is placed on the page), and any
failure of the serialisation stage is `save`'s error. -/
structure ExtremeExternals where
  openDocument : List Nat → Except JsValue MuDocument
  toPixmap : MuPage → ℚ × ℚ → Pixmap
  asJPEG : Pixmap → Int → JpegData
  save : OutPdf → Except JsValue (List Nat)

/-- The body of the per-page loop of `compressExtreme`: render the page at
the fixed `36 / 72` scale matrix, re-encode it as a JPEG at quality
`100 - sliderValue`, and emit one output page of the original page's
physical dimensions, with the image drawn filling that page. -/
def extremePage (ext : ExtremeExternals) (sliderValue : Nat) (page : MuPage) : OutPage :=
  let scale : ℚ := 36 / 72
  let pixmap := ext.toPixmap page (scale, scale)
  let jpegData := ext.asJPEG pixmap (100 - (sliderValue : Int))
  let width := page.x1 - page.x0
  let height := page.y1 - page.y0
  { width := width
    height := height
    image := jpegData
    drawX := 0
    drawY := 0
    drawWidth := width
    drawHeight := height }

/-- The output document assembled by the `compressExtreme` loop: one output
page per input page, in order. -/
def extremeAssemble (ext : ExtremeExternals) (sliderValue : Nat)
    (doc : MuDocument) : OutPdf :=
  ⟨doc.pages.map (extremePage ext sliderValue)⟩

/-- Source `compressExtreme(file, sliderValue)` of
`pdf-compressor-mupdf.ts`: open the document, rasterize every page into a
new document, save it. The `catch` clause only logs and rethrows, so it is
the identity on the error path. -/
def compressExtreme (ext : ExtremeExternals) (file : File)
    (sliderValue : Nat) : Except JsValue Blob :=
  match ext.openDocument file.content with
  | .error e => .error e
  | .ok doc =>
    match ext.save (extremeAssemble ext sliderValue doc) with
    | .error e => .error e
    | .ok bytes => .ok ⟨bytes⟩

/-- Source `compressPDF(file, options)` of `pdf-security.ts` (the final
revision, the one with `engineResults`). The `throw new Error(...)` on the
all-failed path is the rejected promise, modelled as `Except.error` of an
`Error` object. `compressionLevel` defaults to `70` at the destructuring. -/
def compressPDF (adapters : LosslessAdapters) (ext : ExtremeExternals)
    (file : File) (quality : CompressionQuality)
    (compressionLevel : Nat) : Except JsValue CompressionResult :=
  let originalSize := file.size
  let baseName := baseNameFor file
  match quality with
  | .extreme =>
    match compressExtreme ext file compressionLevel with
    | .error e => .error e
    | .ok blob =>
      .ok
        { originalSize := originalSize
          compressedSize := blob.size
          blob := blob
          fileName := baseName ++ "_compressed.pdf"
          engine := .extreme
          engineResults :=
            [{ engine := .mupdf
               label := "MuPDF Extreme"
               status := .success
               compressedSize := some blob.size
               compressionPercent := some (getCompressionPercent originalSize blob.size)
               blob := some blob
               fileName := some (baseName ++ "_compressed.pdf")
               error := none }] }
  | .lossless =>
    let engineResults := runLosslessEngines adapters file originalSize
    match engineResults.find? (fun r => r.status == EngineStatus.success) with
    | none => .error (.errorObj (aggregateFailureMessage engineResults))
    | some best =>
      match best.blob, best.compressedSize with
      | some blob, some csize =>
        .ok
          { originalSize := originalSize
            compressedSize := csize
            blob := blob
            fileName := baseName ++ "_compressed.pdf"
            engine := .lossless best.engine
            engineResults := engineResults }
      | _, _ => .error (.errorObj (aggregateFailureMessage engineResults))

/-! Helper lemmas about the embedding. -/

theorem failed_beq_success_eq_false :
    (EngineStatus.failed == EngineStatus.success) = false := rfl

theorem engineAttempt_engine (originalSize : Nat) (baseName : String) (file : File)
    (runner : LosslessEngineRunner) :
    (engineAttempt originalSize baseName file runner).engine = runner.engine := by
  unfold engineAttempt
  cases runner.run file <;> rfl

theorem runEnginesLoop_map_engine (originalSize : Nat) (baseName : String) (file : File)
    (runners : List LosslessEngineRunner) :
    (runEnginesLoop originalSize baseName file runners).map LosslessEngineResult.engine
      = runners.map LosslessEngineRunner.engine := by
  induction runners with
  | nil => rfl
  | cons r rest ih => simp [runEnginesLoop, engineAttempt_engine, ih]

theorem runEnginesLoop_length (originalSize : Nat) (baseName : String) (file : File)
    (runners : List LosslessEngineRunner) :
    (runEnginesLoop originalSize baseName file runners).length = runners.length := by
  induction runners with
  | nil => rfl
  | cons r rest ih => simp [runEnginesLoop, ih]

theorem mem_runEnginesLoop (originalSize : Nat) (baseName : String) (file : File)
    {runners : List LosslessEngineRunner} {r : LosslessEngineResult}
    (h : r ∈ runEnginesLoop originalSize baseName file runners) :
    ∃ runner ∈ runners, r = engineAttempt originalSize baseName file runner := by
  induction runners with
  | nil => simp [runEnginesLoop] at h
  | cons a rest ih =>
    rcases List.mem_cons.mp h with h1 | h2
    · exact ⟨a, List.mem_cons_self a rest, h1⟩
    · obtain ⟨runner, hmem, hr⟩ := ih h2
      exact ⟨runner, List.mem_cons_of_mem a hmem, hr⟩

theorem engineAttempt_wellFormed (originalSize : Nat) (baseName : String) (file : File)
    (runner : LosslessEngineRunner) :
    (engineAttempt originalSize baseName file runner).status = EngineStatus.success →
      (engineAttempt originalSize baseName file runner).compressedSize.isSome = true := by
  unfold engineAttempt
  cases runner.run file <;> simp

theorem runEnginesLoop_wellFormed (originalSize : Nat) (baseName : String) (file : File)
    (runners : List LosslessEngineRunner) :
    ∀ r ∈ runEnginesLoop originalSize baseName file runners,
      r.status = EngineStatus.success → r.compressedSize.isSome = true := by
  intro r hr
  obtain ⟨runner, _, rfl⟩ := mem_runEnginesLoop originalSize baseName file hr
  exact engineAttempt_wellFormed originalSize baseName file runner

theorem sortLosslessResults_eq (rs : List LosslessEngineResult)
    (hwf : ∀ r ∈ rs, r.status = EngineStatus.success → r.compressedSize.isSome = true) :
    sortLosslessResults rs
      = (rs.filter (fun r => r.status == EngineStatus.success)).mergeSort resultSizeLE
        ++ rs.filter (fun r => r.status != EngineStatus.success) := by
  unfold sortLosslessResults
  have h : rs.filter (fun r => r.status == EngineStatus.success && r.compressedSize.isSome)
      = rs.filter (fun r => r.status == EngineStatus.success) := by
    apply List.filter_congr
    intro r hr
    cases hs : r.status with
    | success => simp [hs, hwf r hr hs]
    | failed => simp [hs]
  rw [h]

theorem sortLosslessResults_perm (rs : List LosslessEngineResult)
    (hwf : ∀ r ∈ rs, r.status = EngineStatus.success → r.compressedSize.isSome = true) :
    (sortLosslessResults rs).Perm rs := by
  rw [sortLosslessResults_eq rs hwf]
  refine ((List.mergeSort_perm _ _).append_right _).trans ?_
  exact rs.filter_append_perm (fun r => r.status == EngineStatus.success)

theorem mem_sortLosslessResults {rs : List LosslessEngineResult}
    {r : LosslessEngineResult} (h : r ∈ sortLosslessResults rs) : r ∈ rs := by
  unfold sortLosslessResults at h
  rcases List.mem_append.mp h with h1 | h2
  · exact (List.mem_filter.mp (List.mem_mergeSort.mp h1)).1
  · exact (List.mem_filter.mp h2).1

theorem resultSizeLE_trans (a b c : LosslessEngineResult) :
    resultSizeLE a b = true → resultSizeLE b c = true → resultSizeLE a c = true := by
  simp only [resultSizeLE, decide_eq_true_eq]
  omega

theorem resultSizeLE_total (a b : LosslessEngineResult) :
    (resultSizeLE a b || resultSizeLE b a) = true := by
  simp only [resultSizeLE, Bool.or_eq_true, decide_eq_true_eq]
  exact Nat.le_total _ _

/-! Definitions naming the pieces of the ranked outcome, as the spec
describes them. `bestResult` is the `engineResults.find(...)` step of
`compressPDF` applied to the ranked result list. -/

/-- The Success subset of a result list, in original order. -/
def successResults (rs : List LosslessEngineResult) : List LosslessEngineResult :=
  rs.filter (fun r => r.status == EngineStatus.success)

/-- The Failure subset of a result list, in original order. -/
def failureResults (rs : List LosslessEngineResult) : List LosslessEngineResult :=
  rs.filter (fun r => r.status != EngineStatus.success)

/-- The Success subset stably sorted ascending by output byte size. -/
def sortedSuccessResults (rs : List LosslessEngineResult) : List LosslessEngineResult :=
  (successResults rs).mergeSort resultSizeLE

/-- The `best` designation of `compressPDF`: the first success in the
ranked list. -/
def bestResult (rs : List LosslessEngineResult) : Option LosslessEngineResult :=
  (sortLosslessResults rs).find? (fun r => r.status == EngineStatus.success)

/-- The ranked-outcome property: ordered results are the stably
size-sorted Success subset followed by the Failure subset in original
order, and `best` is the head of the sorted Success subset, hence the
smallest Success, and is absent exactly when no backend succeeded. -/
def RankedOutcomeSpec (rs : List LosslessEngineResult) : Prop :=
  sortLosslessResults rs = sortedSuccessResults rs ++ failureResults rs
  ∧ (sortedSuccessResults rs).Pairwise (fun a b => resultSizeLE a b = true)
  ∧ (sortedSuccessResults rs).Perm (successResults rs)
  ∧ (∀ a b : LosslessEngineResult, resultSizeLE a b = true →
      List.Sublist [a, b] (successResults rs) →
      List.Sublist [a, b] (sortedSuccessResults rs))
  ∧ bestResult rs = (sortedSuccessResults rs).head?
  ∧ (bestResult rs = none ↔ successResults rs = [])
  ∧ (∀ b, bestResult rs = some b → ∀ r ∈ rs, r.status = EngineStatus.success →
      b.compressedSize.getD 0 ≤ r.compressedSize.getD 0)

/-- C1: for every list of backend results (well-formed in that a Success
carries a size, as every result record built by the Engine Runner does),
the ranked ordered results are the Success subset stably sorted ascending
by output byte size followed by the Failure subset in original invocation
order, and `best` — the first success `compressPDF` finds in the ranked
list — is the head of the sorted Success subset, hence the smallest
Success, and is absent exactly when no backend succeeded. -/
theorem C1_ranked_results (rs : List LosslessEngineResult)
    (hwf : ∀ r ∈ rs, r.status = EngineStatus.success → r.compressedSize.isSome = true) :
    RankedOutcomeSpec rs := by
  have heq : sortLosslessResults rs = sortedSuccessResults rs ++ failureResults rs :=
    sortLosslessResults_eq rs hwf
  have hpair : (sortedSuccessResults rs).Pairwise (fun a b => resultSizeLE a b = true) :=
    List.sorted_mergeSort resultSizeLE_trans resultSizeLE_total (successResults rs)
  have hperm : (sortedSuccessResults rs).Perm (successResults rs) :=
    List.mergeSort_perm (successResults rs) resultSizeLE
  have hstable : ∀ a b : LosslessEngineResult, resultSizeLE a b = true →
      List.Sublist [a, b] (successResults rs) →
      List.Sublist [a, b] (sortedSuccessResults rs) :=
    fun _a _b hab hsub =>
      List.pair_sublist_mergeSort resultSizeLE_trans resultSizeLE_total hab hsub
  have hmem_sorted : ∀ x ∈ sortedSuccessResults rs,
      (x.status == EngineStatus.success) = true := by
    intro x hx
    have hx2 : x ∈ successResults rs := List.mem_mergeSort.mp hx
    exact (List.mem_filter.mp hx2).2
  have hbest : bestResult rs = (sortedSuccessResults rs).head? := by
    unfold bestResult
    rw [heq]
    rcases hs : sortedSuccessResults rs with _ | ⟨b, t⟩
    · simp only [List.nil_append, List.head?_nil]
      rw [List.find?_eq_none]
      intro x hx
      have hx2 := (List.mem_filter.mp hx).2
      simp only [bne_iff_ne, ne_eq] at hx2
      simp [hx2]
    · simp only [List.cons_append, List.head?_cons]
      exact List.find?_cons_of_pos _ (hmem_sorted b (hs ▸ List.mem_cons_self b t))
  have hnone : bestResult rs = none ↔ successResults rs = [] := by
    rw [hbest]
    constructor
    · intro h
      have hnil : sortedSuccessResults rs = [] := List.head?_eq_none_iff.mp h
      exact (List.Perm.nil_eq (hnil ▸ hperm)).symm
    · intro h
      rw [List.head?_eq_none_iff]
      unfold sortedSuccessResults
      rw [h, List.mergeSort_nil]
  have hsmall : ∀ b, bestResult rs = some b → ∀ r ∈ rs,
      r.status = EngineStatus.success →
      b.compressedSize.getD 0 ≤ r.compressedSize.getD 0 := by
    intro b hb r hr hst
    rw [hbest] at hb
    rcases hs : sortedSuccessResults rs with _ | ⟨x, t⟩
    · rw [hs] at hb
      simp at hb
    · rw [hs] at hb
      simp only [List.head?_cons, Option.some.injEq] at hb
      subst hb
      have hrs : r ∈ sortedSuccessResults rs :=
        List.mem_mergeSort.mpr (List.mem_filter.mpr ⟨hr, by simp [hst]⟩)
      rw [hs] at hrs
      rcases List.mem_cons.mp hrs with rfl | hrt
      · exact Nat.le_refl _
      · have hp := (List.pairwise_cons.mp (hs ▸ hpair)).1 r hrt
        simpa [resultSizeLE, decide_eq_true_eq] using hp
  exact ⟨heq, hpair, hperm, hstable, hbest, hnone, hsmall⟩

/-! Concrete sample data used by the closed witness and counterexample
theorems. `sampleAdapters` makes the pdf-lib backend fail and the others
succeed with sizes 9, 3 and 7 bytes. -/

def sampleFile : File := ⟨"doc.pdf", List.replicate 10 1⟩

def sampleAdapters : LosslessAdapters := fun e _f =>
  match e with
  | .mupdf => .ok ⟨List.replicate 9 0⟩
  | .pdfLib => .error (.errorObj "boom")
  | .ghostscript => .ok ⟨List.replicate 3 0⟩
  | .qpdf => .ok ⟨List.replicate 7 0⟩

def c1Sample : List LosslessEngineResult :=
  [{ engine := .mupdf
     label := "MuPDF"
     status := .success
     compressedSize := some 9
     compressionPercent := some 10
     blob := some ⟨List.replicate 9 0⟩
     fileName := some "doc_compressed_mupdf.pdf"
     error := none },
   { engine := .pdfLib
     label := "pdf-lib"
     status := .failed
     compressedSize := none
     compressionPercent := none
     blob := none
     fileName := none
     error := some "boom" },
   { engine := .ghostscript
     label := "Ghostscript"
     status := .success
     compressedSize := some 3
     compressionPercent := some 70
     blob := some ⟨List.replicate 3 0⟩
     fileName := some "doc_compressed_ghostscript.pdf"
     error := none }]

/-- Witness for C1 at a concrete result list with two successes (sizes 9
and 3) and one failure. -/
theorem C1_ranked_results_witness :
    (∀ r ∈ c1Sample, r.status = EngineStatus.success → r.compressedSize.isSome = true)
    ∧ RankedOutcomeSpec c1Sample :=
  ⟨by decide, C1_ranked_results c1Sample (by decide)⟩

/-- C3: a failure thrown by one backend adapter is caught by the loop of
`runLosslessEngines` and converted into a failed result record carrying
the converted message, and every registered backend still contributes its
own record, in invocation order — one failing backend never aborts the
run. -/
theorem C3_backend_failure_isolated (adapters : LosslessAdapters) (file : File)
    (originalSize : Nat) (e : LosslessEngine) (err : JsValue)
    (h : adapters e file = .error err) :
    (runEnginesLoop originalSize (baseNameFor file) file
        (LOSSLESS_ENGINES adapters)).map LosslessEngineResult.engine = registeredEngines
    ∧ ∃ r ∈ runEnginesLoop originalSize (baseNameFor file) file
        (LOSSLESS_ENGINES adapters),
        r.engine = e ∧ r.status = EngineStatus.failed
          ∧ r.error = some (toErrorMessage err) ∧ r.blob = none := by
  constructor
  · rw [runEnginesLoop_map_engine]
    rfl
  · cases e with
    | mupdf =>
      refine ⟨_, List.mem_cons_self _ _, ?_⟩
      simp [engineAttempt, LOSSLESS_ENGINES, h]
    | pdfLib =>
      refine ⟨_, List.mem_cons_of_mem _ (List.mem_cons_self _ _), ?_⟩
      simp [engineAttempt, LOSSLESS_ENGINES, h]
    | ghostscript =>
      refine ⟨_, List.mem_cons_of_mem _ (List.mem_cons_of_mem _ (List.mem_cons_self _ _)), ?_⟩
      simp [engineAttempt, LOSSLESS_ENGINES, h]
    | qpdf =>
      refine ⟨_, List.mem_cons_of_mem _ (List.mem_cons_of_mem _
        (List.mem_cons_of_mem _ (List.mem_cons_self _ _))), ?_⟩
      simp [engineAttempt, LOSSLESS_ENGINES, h]

/-- Witness for C3: with `sampleAdapters`, the pdf-lib backend throws
an Error with message boom and is isolated. -/
theorem C3_backend_failure_isolated_witness :
    (sampleAdapters .pdfLib sampleFile = .error (.errorObj "boom"))
    ∧ ((runEnginesLoop 10 (baseNameFor sampleFile) sampleFile
          (LOSSLESS_ENGINES sampleAdapters)).map LosslessEngineResult.engine
        = registeredEngines
      ∧ ∃ r ∈ runEnginesLoop 10 (baseNameFor sampleFile) sampleFile
          (LOSSLESS_ENGINES sampleAdapters),
          r.engine = .pdfLib ∧ r.status = EngineStatus.failed
            ∧ r.error = some (toErrorMessage (.errorObj "boom")) ∧ r.blob = none) :=
  ⟨rfl, C3_backend_failure_isolated sampleAdapters sampleFile 10 .pdfLib
    (.errorObj "boom") rfl⟩

/-- C4: for any adapter behaviour, `runLosslessEngines` returns exactly as
many result records as there are registered backends, and the engine tags
of the returned records are a permutation of the registered engine ids —
hence pairwise distinct. -/
theorem C4_run_all_exactly_n (adapters : LosslessAdapters) (file : File)
    (originalSize : Nat) :
    (runLosslessEngines adapters file originalSize).length
      = (LOSSLESS_ENGINES adapters).length
    ∧ ((runLosslessEngines adapters file originalSize).map
        LosslessEngineResult.engine).Perm registeredEngines
    ∧ ((runLosslessEngines adapters file originalSize).map
        LosslessEngineResult.engine).Nodup := by
  have hwf := runEnginesLoop_wellFormed originalSize (baseNameFor file) file
    (LOSSLESS_ENGINES adapters)
  have hperm := sortLosslessResults_perm _ hwf
  have htrace : (runEnginesLoop originalSize (baseNameFor file) file
      (LOSSLESS_ENGINES adapters)).map LosslessEngineResult.engine = registeredEngines := by
    rw [runEnginesLoop_map_engine]
    rfl
  have hmap : ((runLosslessEngines adapters file originalSize).map
      LosslessEngineResult.engine).Perm registeredEngines := by
    have := hperm.map LosslessEngineResult.engine
    rwa [htrace] at this
  refine ⟨?_, hmap, ?_⟩
  · unfold runLosslessEngines
    rw [hperm.length_eq, runEnginesLoop_length]
  · exact hmap.symm.nodup (by decide)

unseal List.merge List.mergeSort in
/-- C5 counterexample: with `sampleAdapters` (pdf-lib fails, the others
succeed with sizes 9, 3, 7), the sequence `runLosslessEngines` returns is
not in invocation order of the registered backends: it is
ghostscript, qpdf, mupdf, pdf-lib. -/
theorem C5_counterexample :
    ¬ ((runLosslessEngines sampleAdapters sampleFile 10).map
        LosslessEngineResult.engine = registeredEngines) := by decide

/-- C5 amended: the Engine Runner collects one result per backend in
invocation order, but it ranks before returning — `runLosslessEngines`
returns `sortLosslessResults` of the invocation-order results, not the
invocation-order sequence itself. -/
theorem C5_runner_ranks (adapters : LosslessAdapters) (file : File)
    (originalSize : Nat) :
    runLosslessEngines adapters file originalSize
      = sortLosslessResults (runEnginesLoop originalSize (baseNameFor file) file
          (LOSSLESS_ENGINES adapters))
    ∧ (runEnginesLoop originalSize (baseNameFor file) file
        (LOSSLESS_ENGINES adapters)).map LosslessEngineResult.engine
      = registeredEngines := by
  refine ⟨rfl, ?_⟩
  rw [runEnginesLoop_map_engine]
  rfl

/-! String helper lemmas for the aggregate failure message. -/

unseal Substring.takeWhileAux Substring.takeRightWhileAux in
theorem trim_empty_eq : "".trim = "" := by decide

theorem toErrorMessage_ne_empty (v : JsValue) : toErrorMessage v ≠ "" := by
  cases v with
  | errorObj m =>
    show (if m.trim.isEmpty then "Unknown compression error" else m) ≠ ""
    by_cases h : m.trim.isEmpty = true
    · rw [if_pos h]
      decide
    · rw [if_neg h]
      intro hm
      subst hm
      exact h (by rw [trim_empty_eq]; rfl)
  | str s =>
    show (if s.trim.isEmpty then "Unknown compression error" else s) ≠ ""
    by_cases h : s.trim.isEmpty = true
    · rw [if_pos h]
      decide
    · rw [if_neg h]
      intro hm
      subst hm
      exact h (by rw [trim_empty_eq]; rfl)
  | other =>
    show "Unknown compression error" ≠ ""
    decide

theorem isEmpty_false_of_ne (s : String) (h : s ≠ "") : s.isEmpty = false := by
  cases hb : s.isEmpty with
  | false => rfl
  | true => exact absurd ((String.isEmpty_iff s).mp hb) h

theorem toErrorMessage_isEmpty_false (v : JsValue) :
    (toErrorMessage v).isEmpty = false :=
  isEmpty_false_of_ne _ (toErrorMessage_ne_empty v)

theorem intercalate_go_length_le (sep : String) (as : List String) :
    ∀ acc : String, acc.length ≤ (String.intercalate.go acc sep as).length := by
  induction as with
  | nil => intro acc; exact Nat.le_refl _
  | cons a as ih =>
    intro acc
    have h : String.intercalate.go acc sep (a :: as)
        = String.intercalate.go (acc ++ sep ++ a) sep as := rfl
    rw [h]
    refine Nat.le_trans ?_ (ih (acc ++ sep ++ a))
    simp only [String.length_append]
    omega

theorem intercalate_cons_ne_empty (sep a : String) (as : List String)
    (ha : 0 < a.length) : String.intercalate sep (a :: as) ≠ "" := by
  intro h
  have hle : a.length ≤ (String.intercalate sep (a :: as)).length :=
    intercalate_go_length_le sep as a
  rw [h] at hle
  have h0 : String.length "" = 0 := rfl
  omega

theorem mupdf_label_colon : ("MuPDF" : String) ++ ": " = "MuPDF: " := by decide

theorem pdflib_label_colon : ("pdf-lib" : String) ++ ": " = "pdf-lib: " := by decide

theorem ghostscript_label_colon :
    ("Ghostscript" : String) ++ ": " = "Ghostscript: " := by decide

theorem qpdf_label_colon : ("QPDF" : String) ++ ": " = "QPDF: " := by decide

/-- C2: when every registered backend fails, structural-mode `compressPDF`
ends in the Failed outcome — the rejected promise of its `throw`, modelled
as `Except.error` — whose aggregate message joins every backend's
converted failure reason in invocation order, and that message is
non-empty. The model is a total function, so no other fault can escape the
compress boundary. -/
theorem C2_all_backends_fail (errs : LosslessEngine → JsValue)
    (ext : ExtremeExternals) (file : File) (compressionLevel : Nat) :
    compressPDF (fun e _f => .error (errs e)) ext file .lossless compressionLevel
      = .error (.errorObj (String.intercalate " | "
          ["MuPDF: " ++ toErrorMessage (errs .mupdf),
           "pdf-lib: " ++ toErrorMessage (errs .pdfLib),
           "Ghostscript: " ++ toErrorMessage (errs .ghostscript),
           "QPDF: " ++ toErrorMessage (errs .qpdf)]))
    ∧ String.intercalate " | "
          ["MuPDF: " ++ toErrorMessage (errs .mupdf),
           "pdf-lib: " ++ toErrorMessage (errs .pdfLib),
           "Ghostscript: " ++ toErrorMessage (errs .ghostscript),
           "QPDF: " ++ toErrorMessage (errs .qpdf)] ≠ "" := by
  have hne : 0 < ("MuPDF: " ++ toErrorMessage (errs .mupdf)).length := by
    have h7 : ("MuPDF: " : String).length = 7 := by decide
    simp only [String.length_append]
    omega
  refine ⟨?_, intercalate_cons_ne_empty _ _ _ hne⟩
  unfold compressPDF runLosslessEngines
  simp only [runEnginesLoop, LOSSLESS_ENGINES, engineAttempt, sortLosslessResults,
    aggregateFailureMessage, List.filter, List.map, List.find?, List.mergeSort_nil,
    toErrorMessage_isEmpty_false, failed_beq_success_eq_false, Bool.false_and,
    Bool.not_false, Option.getD_some, Option.isSome_none,
    mupdf_label_colon, pdflib_label_colon, ghostscript_label_colon, qpdf_label_colon]
  rw [isEmpty_false_of_ne _ (intercalate_cons_ne_empty _ _ _ hne)]
  rfl

/-- C6: the rasterization loop re-encodes every page at quality
`100 - aggressiveness` and renders every page at the fixed `36 / 72` scale
matrix — half the standard 72 DPI screen resolution — the same constants
for every page and every aggressiveness value. -/
theorem C6_fixed_resolution_linear_quality (ext : ExtremeExternals)
    (sliderValue : Nat) (doc : MuDocument) :
    (extremeAssemble ext sliderValue doc).pages
      = doc.pages.map (fun p =>
          { width := p.x1 - p.x0
            height := p.y1 - p.y0
            image := ext.asJPEG (ext.toPixmap p ((36 : ℚ) / 72, (36 : ℚ) / 72))
              (100 - (sliderValue : Int))
            drawX := 0
            drawY := 0
            drawWidth := p.x1 - p.x0
            drawHeight := p.y1 - p.y0 })
    ∧ (36 : ℚ) / 72 = 1 / 2 := by
  refine ⟨rfl, by norm_num⟩

/-- C7: the document assembled by the rasterization pipeline has exactly
one output page per input page, and each output page's physical width and
height equal the corresponding input page's bounds extents, for every
aggressiveness value. -/
theorem C7_page_count_and_dimensions (ext : ExtremeExternals)
    (sliderValue : Nat) (doc : MuDocument) :
    (extremeAssemble ext sliderValue doc).pages.length = doc.pages.length
    ∧ (∀ i : Nat,
        ((extremeAssemble ext sliderValue doc).pages[i]?).map OutPage.width
          = (doc.pages[i]?).map (fun p => p.x1 - p.x0))
    ∧ (∀ i : Nat,
        ((extremeAssemble ext sliderValue doc).pages[i]?).map OutPage.height
          = (doc.pages[i]?).map (fun p => p.y1 - p.y0)) := by
  refine ⟨by simp [extremeAssemble], fun i => ?_, fun i => ?_⟩ <;>
  · simp only [extremeAssemble, List.getElem?_map]
    cases doc.pages[i]? <;> rfl

/-- External behaviour under which the input parses as a zero-page
document. Mirrors the real collaborators: mupdf opens a well-formed
zero-page PDF and reports `countPages() == 0`, and pdf-lib saves a
document with no pages successfully, producing a small non-empty PDF. -/
def zeroPageExternals : ExtremeExternals :=
  { openDocument := fun _bytes => .ok ⟨[]⟩
    toPixmap := fun _p _s => ⟨[]⟩
    asJPEG := fun _pm _q => ⟨[]⟩
    save := fun d => .ok (List.replicate (d.pages.length + 1) 37) }

/-- C9 counterexample: on an input that parses as a zero-page document,
extreme-mode `compressPDF` succeeds (returning the saved empty output
document) instead of returning an UnsupportedInput failure — no zero-page
validation exists anywhere on the path. -/
theorem C9_counterexample :
    zeroPageExternals.openDocument sampleFile.content = .ok ⟨[]⟩
    ∧ ∃ res, compressPDF sampleAdapters zeroPageExternals sampleFile
        .extreme 70 = .ok res :=
  ⟨rfl, ⟨_, rfl⟩⟩

/-- C9 amended: `compressExtreme` performs no zero-page check and defines
no UnsupportedInput outcome: on a document that opens with zero pages the
per-page loop runs zero times and the result is exactly the serialisation
of the empty output document — a success whenever the save step succeeds,
and the save step's raw error otherwise. -/
theorem C9_zero_page_not_rejected (ext : ExtremeExternals) (file : File)
    (sliderValue : Nat) (doc : MuDocument)
    (h1 : ext.openDocument file.content = .ok doc) (h2 : doc.pages = []) :
    compressExtreme ext file sliderValue
      = Except.map (fun bytes => Blob.mk bytes) (ext.save ⟨[]⟩) := by
  simp only [compressExtreme, extremeAssemble, h1, h2, List.map_nil]
  cases hs : ext.save ⟨[]⟩ <;> simp [hs, Except.map]

/-- Witness for C9 amended at the concrete zero-page externals. -/
theorem C9_zero_page_not_rejected_witness :
    (zeroPageExternals.openDocument sampleFile.content = .ok ⟨[]⟩)
    ∧ (MuDocument.mk []).pages = []
    ∧ compressExtreme zeroPageExternals sampleFile 70
        = Except.map (fun bytes => Blob.mk bytes) (zeroPageExternals.save ⟨[]⟩) :=
  ⟨rfl, rfl, C9_zero_page_not_rejected zeroPageExternals sampleFile 70 ⟨[]⟩ rfl rfl⟩

theorem engineAttempt_consistent (originalSize : Nat) (baseName : String)
    (file : File) (runner : LosslessEngineRunner) :
    ((engineAttempt originalSize baseName file runner).status = EngineStatus.success ↔
      ((engineAttempt originalSize baseName file runner).blob.isSome = true
        ∧ (engineAttempt originalSize baseName file runner).compressedSize.isSome = true
        ∧ (engineAttempt originalSize baseName file runner).fileName.isSome = true
        ∧ (engineAttempt originalSize baseName file runner).error = none))
    ∧ ∀ b, (engineAttempt originalSize baseName file runner).blob = some b →
        (engineAttempt originalSize baseName file runner).compressedSize = some b.size
        ∧ (engineAttempt originalSize baseName file runner).compressionPercent
            = some (getCompressionPercent originalSize b.size) := by
  unfold engineAttempt
  cases runner.run file with
  | ok blob => simp
  | error e => simp

/-- C10: every record returned by the Engine Runner is internally
consistent: it is a success exactly when its blob, size and file name are
non-null and its error is null; and on success the stored size is the
blob's byte size and the stored percentage is
`getCompressionPercent originalSize size`. -/
theorem C10_result_record_consistent (adapters : LosslessAdapters) (file : File)
    (originalSize : Nat) (r : LosslessEngineResult)
    (hr : r ∈ runLosslessEngines adapters file originalSize) :
    (r.status = EngineStatus.success ↔
      (r.blob.isSome = true ∧ r.compressedSize.isSome = true
        ∧ r.fileName.isSome = true ∧ r.error = none))
    ∧ ∀ b, r.blob = some b →
        r.compressedSize = some b.size
        ∧ r.compressionPercent = some (getCompressionPercent originalSize b.size) := by
  have hr2 : r ∈ runEnginesLoop originalSize (baseNameFor file) file
      (LOSSLESS_ENGINES adapters) := mem_sortLosslessResults hr
  obtain ⟨runner, _, rfl⟩ := mem_runEnginesLoop _ _ _ hr2
  exact engineAttempt_consistent _ _ _ runner

/-- The Ghostscript success record that `runLosslessEngines` produces for
`sampleAdapters` on `sampleFile`. -/
def c10SampleRecord : LosslessEngineResult :=
  { engine := .ghostscript
    label := "Ghostscript"
    status := .success
    compressedSize := some 3
    compressionPercent := some (getCompressionPercent 10 3)
    blob := some ⟨List.replicate 3 0⟩
    fileName := some "doc_compressed_ghostscript.pdf"
    error := none }

/-- The remaining records of the sample run, in ranked order: the QPDF and
MuPDF successes (sizes 7 and 9) and the pdf-lib failure. -/
def c10SampleRest : List LosslessEngineResult :=
  [{ engine := .qpdf
     label := "QPDF"
     status := .success
     compressedSize := some 7
     compressionPercent := some (getCompressionPercent 10 7)
     blob := some ⟨List.replicate 7 0⟩
     fileName := some "doc_compressed_qpdf.pdf"
     error := none },
   { engine := .mupdf
     label := "MuPDF"
     status := .success
     compressedSize := some 9
     compressionPercent := some (getCompressionPercent 10 9)
     blob := some ⟨List.replicate 9 0⟩
     fileName := some "doc_compressed_mupdf.pdf"
     error := none },
   { engine := .pdfLib
     label := "pdf-lib"
     status := .failed
     compressedSize := none
     compressionPercent := none
     blob := none
     fileName := none
     error := some "boom" }]

unseal List.merge List.mergeSort Substring.takeWhileAux Substring.takeRightWhileAux String.mapAux String.substrEq.loop in
theorem sampleRun_eq :
    runLosslessEngines sampleAdapters sampleFile 10
      = c10SampleRecord :: c10SampleRest := by rfl

/-- Witness for C10 at the concrete Ghostscript record of the sample run:
it is the head of the ranked result list. -/
theorem C10_result_record_consistent_witness :
    c10SampleRecord ∈ runLosslessEngines sampleAdapters sampleFile 10
    ∧ ((c10SampleRecord.status = EngineStatus.success ↔
         (c10SampleRecord.blob.isSome = true
           ∧ c10SampleRecord.compressedSize.isSome = true
           ∧ c10SampleRecord.fileName.isSome = true
           ∧ c10SampleRecord.error = none))
       ∧ ∀ b, c10SampleRecord.blob = some b →
           c10SampleRecord.compressedSize = some b.size
           ∧ c10SampleRecord.compressionPercent
               = some (getCompressionPercent 10 b.size)) :=
  ⟨by rw [sampleRun_eq]; exact List.Mem.head _,
   C10_result_record_consistent sampleAdapters sampleFile 10 c10SampleRecord
     (by rw [sampleRun_eq]; exact List.Mem.head _)⟩
